import Mathlib

/-!
Verification of the gridly-dev/cli configuration merge engine, path resolver,
default command builder and manifest tracker.

The JavaScript/TypeScript sources are shallowly embedded as follows.

JSON documents become the inductive type `Json`; objects are entry lists in
insertion order (JavaScript objects and `JSON.parse` results have unique keys
and preserve insertion order, and object spread assigns keys one by one, which
`setKey`/`spread2` reproduce).  The module-load-time platform detection of
`config.js` (`process.platform`, `process.env`, `os.homedir()`) is made
explicit: every path-dependent definition takes the platform, an environment
snapshot and the home directory as parameters.  The filesystem is a state
record `FS` holding the set of existing directories and a map from path to
file content; a file's content is either a document that parses as JSON or
an unparseable string (`FileContent.corrupt`), and its bytes are recovered by
`FileContent.bytes` via `stringify`, the model of `JSON.stringify(v, null, 2)`.
Exceptions become explicit `Except`/error results; effects before a throw
(notably `mkdirSync`) persist in the returned state.

The repository ships the same module twice: `src/unnamed/part_000` (TypeScript
source, package `@21st-dev/magic`) and `src/dist/config.js` (compiled output,
package `@gridly-dev/magic`).  Namespace `Src` embeds the former, namespace
`Dist` the latter; `writeConfig`/`readConfig` (second half of
`src/dist/config.js`) import `clientPaths` from the `Dist` module.
-/

/-- JSON values, with objects as entry lists in insertion order. -/
inductive Json where
  | null
  | bool (b : Bool)
  | num (n : Int)
  | str (s : String)
  | arr (xs : List Json)
  | obj (kvs : List (String × Json))
deriving Repr

namespace Gridly

/-- First binding of a key in an entry list (JavaScript property lookup). -/
def getKey {α : Type} : List (String × α) → String → Option α
  | [], _ => none
  | (k', v') :: rest, k => if k' = k then some v' else getKey rest k

/-- JavaScript property assignment on an entry list: overwrite in place if the
key is present (keeping its position), append otherwise. -/
def setKey {α : Type} : List (String × α) → String → α → List (String × α)
  | [], k, v => [(k, v)]
  | (k', v') :: rest, k, v =>
      if k' = k then (k', v) :: rest else (k', v') :: setKey rest k v

/-- Object spread `\x7b...a, ...b\x7d`: assign the entries of `b` into `a`
one by one, in order. -/
def spread2 {α : Type} : List (String × α) → List (String × α) → List (String × α)
  | a, [] => a
  | a, (k, v) :: rest => spread2 (setKey a k v) rest

/-- Own enumerable string-keyed entries of a value, as produced by object
spread: objects give their entries, arrays and strings give index-keyed
elements, every other value gives nothing. -/
def jsEntries : Json → List (String × Json)
  | .obj kvs => kvs
  | .arr xs => ((List.range xs.length).zip xs).map (fun p => (toString p.1, p.2))
  | .str s => ((List.range s.toList.length).zip s.toList).map
      (fun p => (toString p.1, Json.str (String.mk [p.2])))
  | _ => []

/-- Entries contributed by spreading an optional value (`undefined` spreads to
nothing). -/
def optEntries : Option Json → List (String × Json)
  | none => []
  | some v => jsEntries v

/-- JavaScript property access `x.field`: a `TypeError` (modelled as
`Except.error`) on `null`, the bound value or `undefined` on objects, and
`undefined` on every other primitive or array field miss. -/
def jsGetField : Json → String → Except Unit (Option Json)
  | .null, _ => .error ()
  | .obj kvs, k => .ok (getKey kvs k)
  | _, _ => .ok none

/-- JavaScript truthiness of a JSON value. -/
def isTruthy : Json → Bool
  | .null => false
  | .bool b => b
  | .num n => n != 0
  | .str s => s != ""
  | .arr _ => true
  | .obj _ => true

/-- Whether `typeof v` is the string "object" (true for objects, arrays and
`null`). -/
def typeofIsObject : Json → Bool
  | .null => true
  | .arr _ => true
  | .obj _ => true
  | _ => false

/-- Whether a value is JavaScript `null`. -/
def Json.isNull : Json → Bool
  | .null => true
  | _ => false

/-- Run of `n` space characters. -/
def spaces (n : Nat) : String := String.mk (List.replicate n ' ')

/-- Escape of one character inside a JSON string literal. -/
def escapeChar (c : Char) : String :=
  if c = '"' then "\\\""
  else if c = '\\' then "\\\\"
  else if c = '\n' then "\\n"
  else if c = '\t' then "\\t"
  else if c = '\r' then "\\r"
  else String.mk [c]

/-- Escape of a JSON string body. -/
def escapeString (s : String) : String := String.join (s.toList.map escapeChar)

/-- Quoted JSON string literal. -/
def quoteString (s : String) : String := "\"" ++ escapeString s ++ "\""

/-- Model of `JSON.stringify(v, null, 2)` at a given current indentation. -/
def stringify (indent : Nat) : Json → String
  | .null => "null"
  | .bool true => "true"
  | .bool false => "false"
  | .num n => toString n
  | .str s => quoteString s
  | .arr [] => "[]"
  | .arr xs =>
      "[\n" ++ String.intercalate ",\n"
        (xs.attach.map (fun x => spaces (indent + 2) ++ stringify (indent + 2) x.1))
      ++ "\n" ++ spaces indent ++ "]"
  | .obj [] => "\x7b\x7d"
  | .obj kvs =>
      "\x7b\n" ++ String.intercalate ",\n"
        (kvs.attach.map (fun kv =>
          spaces (indent + 2) ++ quoteString kv.1.1 ++ ": " ++ stringify (indent + 2) kv.1.2))
      ++ "\n" ++ spaces indent ++ "\x7d"
termination_by j => sizeOf j
decreasing_by
  · have := List.sizeOf_lt_of_mem x.2
    simp at *
    omega
  · obtain ⟨⟨a, b⟩, hm⟩ := kv
    have := List.sizeOf_lt_of_mem hm
    simp at *
    omega

/-- Content of a file on disk: either a document that parses as the given JSON
value, or raw bytes that fail to parse. -/
inductive FileContent where
  | json (value : Json)
  | corrupt (raw : String)
deriving Repr

/-- Bytes of a file: a parsed document renders through `stringify` (the system
only ever writes `JSON.stringify(v, null, 2)` output), corrupt content is its
raw string. -/
def FileContent.bytes : FileContent → String
  | .json v => stringify 0 v
  | .corrupt raw => raw

/-- Filesystem state: existing directories and files. -/
structure FS where
  dirs : List String
  files : List (String × FileContent)
deriving Repr

/-- Host operating system family (`process.platform`). -/
inductive Platform where
  | win32
  | darwin
  | linux
deriving Repr, DecidableEq

/-- Snapshot of the environment variables the path resolver reads. -/
structure Env where
  appData : Option String
  xdgConfigHome : Option String
deriving Repr, DecidableEq

/-- JavaScript `v || d` for an optional environment string: the default wins
when the variable is unset or empty (falsy). -/
def jsOr (v : Option String) (d : String) : String :=
  match v with
  | some s => if s = "" then d else s
  | none => d

/-- Path separator of `node:path` for the platform. -/
def sep : Platform → String
  | .win32 => "\\"
  | _ => "/"

/-- Model of `path.join`: join the segments with the platform separator. -/
def pathJoin (platform : Platform) (parts : List String) : String :=
  String.intercalate (sep platform) parts

/-- Model of `path.dirname`: drop the last separator-delimited component. -/
def dirname (platform : Platform) (p : String) : String :=
  String.intercalate (sep platform) (p.splitOn (sep platform)).dropLast

/-- Per-platform base directories (`platformPaths` in both config modules,
identical in source and compiled output). -/
structure PlatformDirs where
  baseDir : String
  vscodePath : String
deriving Repr, DecidableEq

/-- The `platformPaths` table, with the ambient `process.env` and home
directory made explicit. -/
def platformPaths (platform : Platform) (env : Env) (homeDir : String) : PlatformDirs :=
  match platform with
  | .win32 =>
      { baseDir := jsOr env.appData (pathJoin .win32 [homeDir, "AppData", "Roaming"])
        vscodePath := pathJoin .win32 ["Code", "User", "globalStorage"] }
  | .darwin =>
      { baseDir := pathJoin .darwin [homeDir, "Library", "Application Support"]
        vscodePath := pathJoin .darwin ["Code", "User", "globalStorage"] }
  | .linux =>
      { baseDir := jsOr env.xdgConfigHome (pathJoin .linux [homeDir, ".config"])
        vscodePath := "Code/User/globalStorage" }

end Gridly

namespace Dist

open Gridly

/-- The `clientPaths` table of `src/dist/config.js`. -/
def clientPaths (platform : Platform) (env : Env) (homeDir : String) :
    List (String × String) :=
  let pp := platformPaths platform env homeDir
  [("claude", pathJoin platform [pp.baseDir, "Claude", "claude_desktop_config.json"]),
   ("cline", pathJoin platform
      [pp.baseDir, pp.vscodePath, "saoudrizwan.claude-dev", "settings",
       "cline_mcp_settings.json"]),
   ("roo-cline", pathJoin platform
      [pp.baseDir, pp.vscodePath, "rooveterinaryinc.roo-cline", "settings",
       "cline_mcp_settings.json"]),
   ("windsurf", pathJoin platform [homeDir, ".codeium", "windsurf", "mcp_config.json"]),
   ("witsy", pathJoin platform [pp.baseDir, "Witsy", "settings.json"]),
   ("enconvo", pathJoin platform [homeDir, ".config", "enconvo", "mcp_config.json"]),
   ("cursor", pathJoin platform [homeDir, ".cursor", "mcp.json"])]

/-- The `createMagicArgs` helper of `src/dist/config.js`. -/
def createMagicArgs (apiKey : String) : List String :=
  ["-y", "@gridly-dev/magic@latest", "API_KEY=\"" ++ apiKey ++ "\""]

/-- The `createPlatformCommand` helper of `src/dist/config.js`, returning the
server command object. -/
def createPlatformCommand (platform : Platform) (passedArgs : List String) : Json :=
  if platform = .win32 then
    Json.obj [("command", Json.str "cmd"),
              ("args", Json.arr ((["/c", "npx"] ++ passedArgs).map Json.str))]
  else
    Json.obj [("command", Json.str "npx"),
              ("args", Json.arr (passedArgs.map Json.str))]

/-- The `getDefaultConfig` of `src/dist/config.js`; the optional API key
defaults to the placeholder. -/
def getDefaultConfig (platform : Platform) (apiKey : Option String) : Json :=
  let key := apiKey.getD "YOUR_API_KEY"
  let magicArgs := createMagicArgs key
  let command := createPlatformCommand platform magicArgs
  Json.obj [("mcpServers", Json.obj [("@gridly-dev/magic", command)])]

end Dist

namespace Src

open Gridly

/-- The `clientPaths` table of `src/unnamed/part_000` (character-identical to
the compiled table). -/
def clientPaths (platform : Platform) (env : Env) (homeDir : String) :
    List (String × String) :=
  let pp := platformPaths platform env homeDir
  [("claude", pathJoin platform [pp.baseDir, "Claude", "claude_desktop_config.json"]),
   ("cline", pathJoin platform
      [pp.baseDir, pp.vscodePath, "saoudrizwan.claude-dev", "settings",
       "cline_mcp_settings.json"]),
   ("roo-cline", pathJoin platform
      [pp.baseDir, pp.vscodePath, "rooveterinaryinc.roo-cline", "settings",
       "cline_mcp_settings.json"]),
   ("windsurf", pathJoin platform [homeDir, ".codeium", "windsurf", "mcp_config.json"]),
   ("witsy", pathJoin platform [pp.baseDir, "Witsy", "settings.json"]),
   ("enconvo", pathJoin platform [homeDir, ".config", "enconvo", "mcp_config.json"]),
   ("cursor", pathJoin platform [homeDir, ".cursor", "mcp.json"])]

/-- The `createMagicArgs` helper of `src/unnamed/part_000`. -/
def createMagicArgs (apiKey : String) : List String :=
  ["-y", "@21st-dev/magic@latest", "API_KEY=\"" ++ apiKey ++ "\""]

/-- The `createPlatformCommand` helper of `src/unnamed/part_000`. -/
def createPlatformCommand (platform : Platform) (passedArgs : List String) : Json :=
  if platform = .win32 then
    Json.obj [("command", Json.str "cmd"),
              ("args", Json.arr ((["/c", "npx"] ++ passedArgs).map Json.str))]
  else
    Json.obj [("command", Json.str "npx"),
              ("args", Json.arr (passedArgs.map Json.str))]

/-- The `getDefaultConfig` of `src/unnamed/part_000`. -/
def getDefaultConfig (platform : Platform) (apiKey : Option String) : Json :=
  let key := apiKey.getD "YOUR_API_KEY"
  let magicArgs := createMagicArgs key
  let command := createPlatformCommand platform magicArgs
  Json.obj [("mcpServers", Json.obj [("@21st-dev/magic", command)])]

end Src

namespace Gridly

/-- Errors the config merge engine can raise. -/
inductive CfgError where
  | invalidClient (client : String)
  | invalidConfig
  | typeError
deriving Repr, DecidableEq

/-- The `getConfigPath` of `src/dist/config.js`: look the client up in the
compiled module's `clientPaths` table; a missing entry is the invalid-client
case. -/
def getConfigPath (platform : Platform) (env : Env) (homeDir : String)
    (client : String) : Option String :=
  getKey (Dist.clientPaths platform env homeDir) client

/-- Validation `!config.mcpServers || typeof config.mcpServers !== "object"`
applied to the looked-up field: present, truthy and of typeof "object". -/
def validMcp : Option Json → Bool
  | none => false
  | some v => isTruthy v && typeofIsObject v

/-- The merged document literal of `writeConfig`:
`\x7b...existingConfig, mcpServers: \x7b...existingConfig.mcpServers,
...config.mcpServers\x7d\x7d`. -/
def mergedConfig (existingConfig : Json) (exMcpOpt : Option Json)
    (newMcpEntries : List (String × Json)) : Json :=
  Json.obj (setKey (jsEntries existingConfig) "mcpServers"
    (Json.obj (spread2 (optEntries exMcpOpt) newMcpEntries)))

/-- The `readConfig` of `src/dist/config.js`: default document when the file
is missing, and any exception inside the try (a parse failure, or the
property access throwing on a `null` document) yields the default as well. -/
def readConfig (platform : Platform) (env : Env) (homeDir : String)
    (client : String) (fs : FS) : Except CfgError Json :=
  match getConfigPath platform env homeDir client with
  | none => .error (.invalidClient client)
  | some configPath =>
    match getKey fs.files configPath with
    | none => .ok (Json.obj [("mcpServers", Json.obj [])])
    | some (.corrupt _) => .ok (Json.obj [("mcpServers", Json.obj [])])
    | some (.json rawConfig) =>
      match jsGetField rawConfig "mcpServers" with
      | .error _ => .ok (Json.obj [("mcpServers", Json.obj [])])
      | .ok mOpt =>
        .ok (Json.obj (setKey (jsEntries rawConfig) "mcpServers"
          (match mOpt with
           | some v => if isTruthy v then v else Json.obj []
           | none => Json.obj [])))

/-- The `existsSync`/`mkdirSync` pair of `writeConfig`: create the directory
when it is missing. -/
def ensureDir (fs : FS) (d : String) : FS :=
  if fs.dirs.contains d then fs else { fs with dirs := d :: fs.dirs }

/-- The existing-config read of `writeConfig` (its try/catch block): the
parsed document when the file exists and parses, the empty default document
when the file is missing or reading/parsing fails. -/
def existingConfigOf (fs : FS) (configPath : String) : Json :=
  match getKey fs.files configPath with
  | some (.json j) => j
  | some (.corrupt _) => Json.obj [("mcpServers", Json.obj [])]
  | none => Json.obj [("mcpServers", Json.obj [])]

/-- The `writeConfig` of `src/dist/config.js`, as a state transition on `FS`.
Steps in source order: resolve the path (throw on an unknown client), create
the parent directory if missing, validate the new `mcpServers` field (throw
`invalidConfig`, with the directory creation already persisted), read the
existing file (missing or unparseable content falls back to the empty default
document), evaluate the merged object literal (property access on a `null`
existing document throws), and write the merged document. -/
def writeConfig (platform : Platform) (env : Env) (homeDir : String)
    (client : String) (config : Json) (fs : FS) : FS × Except CfgError Unit :=
  match getConfigPath platform env homeDir client with
  | none => (fs, .error (.invalidClient client))
  | some configPath =>
    let configDir := dirname platform configPath
    let fs1 : FS := ensureDir fs configDir
    match jsGetField config "mcpServers" with
    | .error _ => (fs1, .error .typeError)
    | .ok mcpOpt =>
      if validMcp mcpOpt then
        let existingConfig : Json := existingConfigOf fs1 configPath
        match jsGetField existingConfig "mcpServers" with
        | .error _ => (fs1, .error .typeError)
        | .ok exMcpOpt =>
          let merged := mergedConfig existingConfig exMcpOpt (optEntries mcpOpt)
          ({ fs1 with files := setKey fs1.files configPath (.json merged) }, .ok ())
      else (fs1, .error .invalidConfig)

/-- The `install` of `src/src/index.ts`: write the default config built from
the optional API key. -/
def install (platform : Platform) (env : Env) (homeDir : String)
    (client : String) (apiKey : Option String) (fs : FS) : FS × Except CfgError Unit :=
  writeConfig platform env homeDir client (Src.getDefaultConfig platform apiKey) fs

/-- Bytes of the file at a path, when present. -/
def fileBytes (fs : FS) (p : String) : Option String :=
  (getKey fs.files p).map FileContent.bytes

end Gridly

namespace Cli

open Gridly

/-- The closed `sourceType` tag of a manifest entry. -/
inductive SourceType where
  | url_success
  | direct_name
  | url_fetch_failed
deriving Repr, DecidableEq

/-- One record of the component manifest (`ManifestEntry` in the CLI source). -/
structure ManifestEntry where
  name : String
  sourceUrl : Option String
  sourceType : SourceType
  registryItem : Option Json
  fetchError : Option String
  addedByCLI : Bool
deriving Repr

/-- The duplicate check of the add workflow: some existing entry has the same
`name` and the same `sourceType`. -/
def isDuplicate (manifest : List ManifestEntry) (e : ManifestEntry) : Bool :=
  manifest.any (fun entry =>
    entry.name == e.name && decide (entry.sourceType = e.sourceType))

/-- State of the manifest file on disk. -/
inductive ManifestFile where
  | missing
  | corrupt
  | nonArray (j : Json)
  | entries (l : List ManifestEntry)
deriving Repr

/-- Loading the manifest: a missing file, unparseable content or a non-array
document all reinitialize to the empty sequence (with a warning). -/
def loadManifest : ManifestFile → List ManifestEntry
  | .missing => []
  | .corrupt => []
  | .nonArray _ => []
  | .entries l => l

/-- The manifest update of the add workflow: skip the write when the entry is
a duplicate (reporting it as already tracked, the returned flag), otherwise
append and rewrite the whole array. -/
def recordEntry (mf : ManifestFile) (e : ManifestEntry) : ManifestFile × Bool :=
  let manifest := loadManifest mf
  if isDuplicate manifest e then (mf, true)
  else (.entries (manifest ++ [e]), false)

/-- URL classification of the component identifier: `new URL` succeeds and the
protocol is http or https (modelled as a scheme check on the characters). -/
def isHttpUrl (s : String) : Bool :=
  "http://".toList.isPrefixOf s.toList || "https://".toList.isPrefixOf s.toList

/-- Name extraction `registryItem.name || componentIdentifier`: a truthy
string name field wins, anything falsy falls back to the identifier (the
model keeps names as strings, matching the declared interface). -/
def jsNameOf (item : Json) (identifier : String) : String :=
  match item with
  | .obj kvs =>
    match getKey kvs "name" with
    | some (.str s) => if s = "" then identifier else s
    | _ => identifier
  | _ => identifier

/-- The manifest entry prepared in the URL branch of the add workflow: a fetch
error (or a `null` payload, whose `.name` access throws inside the same try)
degrades to a `url_fetch_failed` entry; a fetched document yields a
`url_success` entry carrying it. -/
def fetchEntry (identifier : String) (fetchResult : Except String Json) :
    ManifestEntry :=
  match fetchResult with
  | .ok item =>
    if Json.isNull item then
      { name := identifier, sourceUrl := some identifier,
        sourceType := .url_fetch_failed, registryItem := none,
        fetchError := some "TypeError", addedByCLI := true }
    else
      { name := jsNameOf item identifier, sourceUrl := some identifier,
        sourceType := .url_success, registryItem := some item,
        fetchError := none, addedByCLI := true }
  | .error msg =>
    { name := identifier, sourceUrl := some identifier,
      sourceType := .url_fetch_failed, registryItem := none,
      fetchError := some msg, addedByCLI := true }

/-- Observable outcome of one run of the add workflow. -/
structure AddResult where
  newEntry : Option ManifestEntry
  installerRan : Option String
  manifestAfter : ManifestFile
  alreadyTracked : Bool
  exitCode : Option Nat
deriving Repr

/-- One run of the `add` command action, with the two external collaborators
(the URL fetch and the installer subprocess exit code) supplied as inputs.
The entry is prepared first (a failed fetch only degrades it), the external
installer is then always invoked with the original identifier; a non-zero
installer exit propagates as the process exit code with the manifest
untouched, and only a successful installer run updates the manifest. -/
def add (identifier : String) (fetchResult : Except String Json)
    (installerExit : Nat) (mf : ManifestFile) : AddResult :=
  let newEntry : ManifestEntry :=
    if isHttpUrl identifier then fetchEntry identifier fetchResult
    else { name := identifier, sourceUrl := none, sourceType := .direct_name,
           registryItem := none, fetchError := none, addedByCLI := true }
  if installerExit = 0 then
    let result := recordEntry mf newEntry
    { newEntry := some newEntry, installerRan := some identifier,
      manifestAfter := result.1, alreadyTracked := result.2,
      exitCode := none }
  else
    { newEntry := some newEntry, installerRan := some identifier,
      manifestAfter := mf, alreadyTracked := false,
      exitCode := some installerExit }

end Cli

namespace Gridly

/-! Lemmas about property lookup, assignment and spread. -/

theorem getKey_setKey_self {α : Type} (l : List (String × α)) (k : String) (v : α) :
    getKey (setKey l k v) k = some v := by
  induction l with
  | nil => simp [setKey, getKey]
  | cons hd tl ih =>
    obtain ⟨k', v'⟩ := hd
    by_cases h : k' = k
    · simp [setKey, h, getKey]
    · simp [setKey, h, getKey, ih]

theorem getKey_setKey_ne {α : Type} (l : List (String × α)) (k kq : String) (v : α)
    (h : kq ≠ k) : getKey (setKey l k v) kq = getKey l kq := by
  induction l with
  | nil => simp [setKey, getKey, Ne.symm h]
  | cons hd tl ih =>
    obtain ⟨k1, v1⟩ := hd
    by_cases hk : k1 = k
    · subst hk
      simp [setKey, getKey, Ne.symm h]
    · by_cases hq : k1 = kq
      · subst hq
        simp [setKey, h, getKey]
      · simp [setKey, hk, getKey, hq, ih]

theorem setKey_setKey_same {α : Type} (l : List (String × α)) (k : String) (v w : α) :
    setKey (setKey l k v) k w = setKey l k w := by
  induction l with
  | nil => simp [setKey]
  | cons hd tl ih =>
    obtain ⟨k1, v1⟩ := hd
    by_cases hk : k1 = k
    · simp [setKey, hk]
    · simp [setKey, hk, ih]

theorem setKey_eq_of_getKey {α : Type} (l : List (String × α)) (k : String) (v : α)
    (h : getKey l k = some v) : setKey l k v = l := by
  induction l with
  | nil => simp [getKey] at h
  | cons hd tl ih =>
    obtain ⟨k1, v1⟩ := hd
    by_cases hk : k1 = k
    · simp [getKey, hk] at h
      simp [setKey, hk, h]
    · simp [getKey, hk] at h
      simp [setKey, hk, ih h]

theorem getKey_eq_none {α : Type} (l : List (String × α)) (k : String)
    (h : k ∉ l.map Prod.fst) : getKey l k = none := by
  induction l with
  | nil => simp [getKey]
  | cons hd tl ih =>
    obtain ⟨k1, v1⟩ := hd
    simp only [List.map_cons, List.mem_cons, not_or] at h
    simp [getKey, Ne.symm h.1, ih h.2]

theorem getKey_append {α : Type} (a b : List (String × α)) (k : String)
    (h : getKey a k = none) : getKey (a ++ b) k = getKey b k := by
  induction a with
  | nil => simp
  | cons hd tl ih =>
    obtain ⟨k1, v1⟩ := hd
    by_cases hk : k1 = k
    · simp [getKey, hk] at h
    · simp [getKey, hk] at h ⊢
      exact ih h

theorem setKey_of_getKey_none {α : Type} (l : List (String × α)) (k : String) (v : α)
    (h : getKey l k = none) : setKey l k v = l ++ [(k, v)] := by
  induction l with
  | nil => simp [setKey]
  | cons hd tl ih =>
    obtain ⟨k1, v1⟩ := hd
    by_cases hk : k1 = k
    · simp [getKey, hk] at h
    · simp [getKey, hk] at h
      simp [setKey, hk, ih h]

theorem getKey_spread2_of_none {α : Type} (b a : List (String × α)) (k : String)
    (h : getKey b k = none) : getKey (spread2 a b) k = getKey a k := by
  induction b generalizing a with
  | nil => simp [spread2]
  | cons hd tl ih =>
    obtain ⟨k1, v1⟩ := hd
    by_cases hk : k1 = k
    · simp [getKey, hk] at h
    · simp [getKey, hk] at h
      rw [spread2, ih _ h, getKey_setKey_ne]
      exact fun hh => hk hh.symm

theorem getKey_spread2_of_some {α : Type} (b a : List (String × α)) (k : String) (v : α)
    (hnd : (b.map Prod.fst).Nodup) (h : getKey b k = some v) :
    getKey (spread2 a b) k = some v := by
  induction b generalizing a with
  | nil => simp [getKey] at h
  | cons hd tl ih =>
    obtain ⟨k1, v1⟩ := hd
    simp only [List.map_cons, List.nodup_cons] at hnd
    by_cases hk : k1 = k
    · subst hk
      simp [getKey] at h
      subst h
      rw [spread2, getKey_spread2_of_none tl _ _ (getKey_eq_none tl _ hnd.1)]
      exact getKey_setKey_self a k1 v1
    · simp [getKey, hk] at h
      rw [spread2]
      exact ih _ hnd.2 h

theorem spread2_self {α : Type} (b a : List (String × α))
    (hnd : (b.map Prod.fst).Nodup) : spread2 (spread2 a b) b = spread2 a b := by
  induction b generalizing a with
  | nil => simp [spread2]
  | cons hd tl ih =>
    obtain ⟨k1, v1⟩ := hd
    simp only [List.map_cons, List.nodup_cons] at hnd
    rw [spread2, spread2]
    have h1 : getKey (spread2 (setKey a k1 v1) tl) k1 = some v1 := by
      rw [getKey_spread2_of_none tl _ _ (getKey_eq_none tl _ hnd.1)]
      exact getKey_setKey_self a k1 v1
    rw [setKey_eq_of_getKey _ _ _ h1]
    exact ih _ hnd.2

theorem spread2_append {α : Type} (b a : List (String × α))
    (hnd : (b.map Prod.fst).Nodup) (hdisj : ∀ p ∈ b, getKey a p.1 = none) :
    spread2 a b = a ++ b := by
  induction b generalizing a with
  | nil => simp [spread2]
  | cons hd tl ih =>
    obtain ⟨k1, v1⟩ := hd
    simp only [List.map_cons, List.nodup_cons] at hnd
    have hdisj2 : ∀ p ∈ tl, getKey (a ++ [(k1, v1)]) p.1 = none := by
      intro p hp
      rw [getKey_append _ _ _ (hdisj p (by simp [hp]))]
      have hne : k1 ≠ p.1 := by
        intro hh
        exact hnd.1 (hh ▸ List.mem_map_of_mem Prod.fst hp)
      simp [getKey, hne]
    rw [spread2, setKey_of_getKey_none _ _ _ (hdisj (k1, v1) (by simp)),
        ih _ hnd.2 hdisj2]
    simp

theorem spread2_nil {α : Type} (b : List (String × α))
    (hnd : (b.map Prod.fst).Nodup) : spread2 [] b = b := by
  have := spread2_append b [] hnd (by intro p _; simp [getKey])
  simpa using this

theorem ensureDir_files (fs : FS) (d : String) : (ensureDir fs d).files = fs.files := by
  unfold ensureDir
  split <;> rfl

end Gridly

namespace Gridly

theorem existingConfigOf_ensureDir (fs : FS) (d p : String) :
    existingConfigOf (ensureDir fs d) p = existingConfigOf fs p := by
  unfold existingConfigOf
  rw [ensureDir_files]

/-- Evaluation of `writeConfig` once the client resolves and the new config
passes the `mcpServers` validation: the existing document decides between the
`null`-access throw and a successful merged write. -/
theorem writeConfig_eq_of_valid (platform : Platform) (env : Env) (homeDir : String)
    (client : String) (config : Json) (fs : FS) (path : String)
    (mcpOpt : Option Json)
    (hpath : getConfigPath platform env homeDir client = some path)
    (hget : jsGetField config "mcpServers" = .ok mcpOpt)
    (hval : validMcp mcpOpt = true) :
    writeConfig platform env homeDir client config fs =
      match jsGetField (existingConfigOf fs path) "mcpServers" with
      | .error _ => (ensureDir fs (dirname platform path), .error .typeError)
      | .ok exOpt =>
        ({ ensureDir fs (dirname platform path) with
            files := setKey fs.files path
              (.json (mergedConfig (existingConfigOf fs path) exOpt
                (optEntries mcpOpt))) },
          .ok ()) := by
  unfold writeConfig
  rw [hpath]
  simp only [hget, hval, if_true, existingConfigOf_ensureDir, ensureDir_files]

/-- Specialization of `writeConfig_eq_of_valid` to an object-valued new
`mcpServers` field. -/
theorem writeConfig_eq (platform : Platform) (env : Env) (homeDir : String)
    (client : String) (config : Json) (fs : FS) (path : String)
    (newMcp : List (String × Json))
    (hpath : getConfigPath platform env homeDir client = some path)
    (hnew : jsGetField config "mcpServers" = .ok (some (Json.obj newMcp))) :
    writeConfig platform env homeDir client config fs =
      match jsGetField (existingConfigOf fs path) "mcpServers" with
      | .error _ => (ensureDir fs (dirname platform path), .error .typeError)
      | .ok exOpt =>
        ({ ensureDir fs (dirname platform path) with
            files := setKey fs.files path
              (.json (mergedConfig (existingConfigOf fs path) exOpt newMcp)) },
          .ok ()) := by
  have h := writeConfig_eq_of_valid platform env homeDir client config fs path
    (some (Json.obj newMcp)) hpath hnew (by simp [validMcp, isTruthy, typeofIsObject])
  simpa [optEntries, jsEntries] using h

theorem getConfigPath_eq_none (platform : Platform) (env : Env) (homeDir : String)
    (client : String)
    (h : client ∉ ["claude", "cline", "roo-cline", "windsurf", "witsy",
                   "enconvo", "cursor"]) :
    getConfigPath platform env homeDir client = none := by
  simp only [List.mem_cons, not_or] at h
  obtain ⟨h1, h2, h3, h4, h5, h6, h7, _⟩ := h
  simp [getConfigPath, Dist.clientPaths, getKey, Ne.symm h1, Ne.symm h2,
        Ne.symm h3, Ne.symm h4, Ne.symm h5, Ne.symm h6, Ne.symm h7]

/-- C6: for every identifier outside the closed client set, `writeConfig`
fails with the invalid-client error, touches no file and returns the
filesystem unchanged. -/
theorem invalidClient_no_write (platform : Platform) (env : Env) (homeDir : String)
    (client : String) (config : Json) (fs : FS)
    (h : client ∉ ["claude", "cline", "roo-cline", "windsurf", "witsy",
                   "enconvo", "cursor"]) :
    writeConfig platform env homeDir client config fs =
      (fs, .error (.invalidClient client)) := by
  unfold writeConfig
  rw [getConfigPath_eq_none platform env homeDir client h]

/-- Witness for C6: a concrete out-of-set identifier on a concrete filesystem. -/
theorem invalidClient_no_write_witness :
    writeConfig .linux ⟨none, none⟩ "/home/u" "vscode" (Json.obj []) ⟨[], []⟩ =
      (⟨[], []⟩, .error (.invalidClient "vscode")) :=
  invalidClient_no_write .linux ⟨none, none⟩ "/home/u" "vscode" (Json.obj []) ⟨[], []⟩
    (by decide)

end Gridly

namespace Gridly

/-- C3 (amended): when the client resolves and the new config's `mcpServers`
field fails validation, the write fails with the invalid-config error and no
file is written — but the parent directory, whose creation precedes the
validation in the source, has already been created when it was missing. -/
theorem invalidConfig_no_file_write (platform : Platform) (env : Env)
    (homeDir : String) (client : String) (config : Json) (fs : FS) (path : String)
    (v : Option Json)
    (hpath : getConfigPath platform env homeDir client = some path)
    (hget : jsGetField config "mcpServers" = .ok v)
    (hval : validMcp v = false) :
    writeConfig platform env homeDir client config fs =
      (ensureDir fs (dirname platform path), .error .invalidConfig) ∧
    (ensureDir fs (dirname platform path)).files = fs.files := by
  refine ⟨?_, ensureDir_files fs _⟩
  unfold writeConfig
  rw [hpath]
  simp only [hget, hval, Bool.false_eq_true, if_false]

/-- C3 counterexample: with a missing parent directory and a new config whose
`mcpServers` field is absent, the write does fail with the invalid-config
error, yet the filesystem is not left entirely unchanged: the parent
directory has been created before the validation ran. -/
theorem invalidConfig_creates_dir_counterexample :
    (writeConfig .linux ⟨none, none⟩ "/home/u" "claude" (Json.obj []) ⟨[], []⟩).2 =
        .error CfgError.invalidConfig ∧
      (writeConfig .linux ⟨none, none⟩ "/home/u" "claude" (Json.obj []) ⟨[], []⟩).1.dirs ≠
        (FS.mk [] []).dirs := by
  constructor
  · rfl
  · decide

/-- Witness for the amended C3: a string-valued `mcpServers` field fails
validation, nothing is written, and the config directory is created. -/
theorem invalidConfig_no_file_write_witness :
    writeConfig .darwin ⟨none, none⟩ "/Users/u" "cursor"
        (Json.obj [("mcpServers", Json.str "x")]) ⟨[], []⟩ =
      (ensureDir ⟨[], []⟩ (dirname .darwin "/Users/u/.cursor/mcp.json"),
        .error .invalidConfig) ∧
    (ensureDir (⟨[], []⟩ : FS) (dirname .darwin "/Users/u/.cursor/mcp.json")).files =
      (⟨[], []⟩ : FS).files :=
  invalidConfig_no_file_write .darwin ⟨none, none⟩ "/Users/u" "cursor"
    (Json.obj [("mcpServers", Json.str "x")]) ⟨[], []⟩
    "/Users/u/.cursor/mcp.json" (some (Json.str "x")) rfl rfl rfl

/-- C9: after every successful config write the persisted document's
`mcpServers` key exists and is an object, whatever the prior file content. -/
theorem mcpServers_object_after_write (platform : Platform) (env : Env)
    (homeDir : String) (client : String) (config : Json) (fs : FS)
    (hsucc : (writeConfig platform env homeDir client config fs).2 = .ok ()) :
    ∃ path mergedDoc entries,
      getConfigPath platform env homeDir client = some path ∧
      getKey (writeConfig platform env homeDir client config fs).1.files path =
        some (FileContent.json mergedDoc) ∧
      jsGetField mergedDoc "mcpServers" = .ok (some (Json.obj entries)) := by
  cases hp : getConfigPath platform env homeDir client with
  | none =>
    simp only [writeConfig, hp] at hsucc
    simp at hsucc
  | some path =>
    cases hg : jsGetField config "mcpServers" with
    | error e =>
      simp only [writeConfig, hp, hg] at hsucc
      simp at hsucc
    | ok mcpOpt =>
      cases hv : validMcp mcpOpt with
      | false =>
        simp only [writeConfig, hp, hg, hv, Bool.false_eq_true, if_false] at hsucc
        simp at hsucc
      | true =>
        have heq := writeConfig_eq_of_valid platform env homeDir client config fs
          path mcpOpt hp hg hv
        rw [heq] at hsucc ⊢
        cases he : jsGetField (existingConfigOf fs path) "mcpServers" with
        | error e =>
          simp only [he] at hsucc
          simp at hsucc
        | ok exOpt =>
          simp only [he]
          refine ⟨path, mergedConfig (existingConfigOf fs path) exOpt (optEntries mcpOpt),
            spread2 (optEntries exOpt) (optEntries mcpOpt), rfl, ?_, ?_⟩
          · exact getKey_setKey_self _ _ _
          · simp only [mergedConfig, jsGetField]
            rw [getKey_setKey_self]

/-- Witness for C9: a concrete successful write on an empty filesystem. -/
theorem mcpServers_object_after_write_witness :
    ∃ path mergedDoc entries,
      getConfigPath .linux ⟨none, none⟩ "/h" "cursor" = some path ∧
      getKey (writeConfig .linux ⟨none, none⟩ "/h" "cursor"
          (Json.obj [("mcpServers", Json.obj [])]) ⟨[], []⟩).1.files path =
        some (FileContent.json mergedDoc) ∧
      jsGetField mergedDoc "mcpServers" = .ok (some (Json.obj entries)) :=
  mcpServers_object_after_write .linux ⟨none, none⟩ "/h" "cursor"
    (Json.obj [("mcpServers", Json.obj [])]) ⟨[], []⟩ rfl

end Gridly

namespace Gridly

/-- C1: a successful install writes the shallow merge in which every existing
top-level key other than `mcpServers` keeps its value, every existing server
entry whose name does not collide with a new entry is preserved unchanged,
and on a server-name collision the new entry wins. -/
theorem merge_preserves_foreign_data (platform : Platform) (env : Env)
    (homeDir : String) (client : String) (config : Json) (fs : FS) (path : String)
    (exKvs exMcp newMcp : List (String × Json))
    (hpath : getConfigPath platform env homeDir client = some path)
    (hfile : getKey fs.files path = some (FileContent.json (Json.obj exKvs)))
    (hexMcp : getKey exKvs "mcpServers" = some (Json.obj exMcp))
    (hnew : jsGetField config "mcpServers" = .ok (some (Json.obj newMcp)))
    (hnd : (newMcp.map Prod.fst).Nodup) :
    ∃ mergedDoc mergedMcp,
      (writeConfig platform env homeDir client config fs).2 = .ok () ∧
      getKey (writeConfig platform env homeDir client config fs).1.files path =
        some (FileContent.json (Json.obj mergedDoc)) ∧
      (∀ k, k ≠ "mcpServers" → getKey mergedDoc k = getKey exKvs k) ∧
      getKey mergedDoc "mcpServers" = some (Json.obj mergedMcp) ∧
      (∀ n, getKey newMcp n = none → getKey mergedMcp n = getKey exMcp n) ∧
      (∀ n v, getKey newMcp n = some v → getKey mergedMcp n = some v) := by
  have heq := writeConfig_eq platform env homeDir client config fs path newMcp hpath hnew
  have hex : existingConfigOf fs path = Json.obj exKvs := by
    unfold existingConfigOf
    rw [hfile]
  rw [hex] at heq
  have hf : jsGetField (Json.obj exKvs) "mcpServers" = .ok (some (Json.obj exMcp)) := by
    simp [jsGetField, hexMcp]
  simp only [hf] at heq
  have hm : mergedConfig (Json.obj exKvs) (some (Json.obj exMcp)) newMcp =
      Json.obj (setKey exKvs "mcpServers" (Json.obj (spread2 exMcp newMcp))) := by
    simp [mergedConfig, jsEntries, optEntries]
  rw [hm] at heq
  refine ⟨setKey exKvs "mcpServers" (Json.obj (spread2 exMcp newMcp)),
    spread2 exMcp newMcp, ?_, ?_, ?_, ?_, ?_, ?_⟩
  · rw [heq]
  · rw [heq]
    exact getKey_setKey_self _ _ _
  · intro k hk
    exact getKey_setKey_ne _ _ _ _ hk
  · exact getKey_setKey_self _ _ _
  · intro n hn
    exact getKey_spread2_of_none _ _ _ hn
  · intro n v hv
    exact getKey_spread2_of_some _ _ _ _ hnd hv

/-- C4: when the file at the resolved path is missing or fails to parse, the
write succeeds and produces a file whose `mcpServers` holds exactly the new
entries. -/
theorem corrupt_or_missing_recovery (platform : Platform) (env : Env)
    (homeDir : String) (client : String) (config : Json) (fs : FS) (path : String)
    (newMcp : List (String × Json))
    (hpath : getConfigPath platform env homeDir client = some path)
    (hfile : getKey fs.files path = none ∨
      ∃ raw, getKey fs.files path = some (FileContent.corrupt raw))
    (hnew : jsGetField config "mcpServers" = .ok (some (Json.obj newMcp)))
    (hnd : (newMcp.map Prod.fst).Nodup) :
    (writeConfig platform env homeDir client config fs).2 = .ok () ∧
    getKey (writeConfig platform env homeDir client config fs).1.files path =
      some (FileContent.json (Json.obj [("mcpServers", Json.obj newMcp)])) := by
  have heq := writeConfig_eq platform env homeDir client config fs path newMcp hpath hnew
  have hex : existingConfigOf fs path = Json.obj [("mcpServers", Json.obj [])] := by
    unfold existingConfigOf
    rcases hfile with h | ⟨raw, h⟩ <;> rw [h]
  rw [hex] at heq
  have hf : jsGetField (Json.obj [("mcpServers", Json.obj [])]) "mcpServers" =
      .ok (some (Json.obj ([] : List (String × Json)))) := by
    simp [jsGetField, getKey]
  simp only [hf] at heq
  have hm : mergedConfig (Json.obj [("mcpServers", Json.obj [])])
      (some (Json.obj [])) newMcp = Json.obj [("mcpServers", Json.obj newMcp)] := by
    simp [mergedConfig, jsEntries, optEntries, setKey, spread2_nil newMcp hnd]
  rw [hm] at heq
  rw [heq]
  exact ⟨rfl, getKey_setKey_self _ _ _⟩

/-- Shared concrete new config used by witnesses. -/
def cfgExample : Json :=
  Json.obj [("mcpServers", Json.obj [("srv", Json.obj [("command", Json.str "npx")])])]

/-- Witness for C1: merging into an existing document with a foreign server
entry and a foreign top-level key. -/
theorem merge_preserves_foreign_data_witness :
    ∃ mergedDoc mergedMcp,
      (writeConfig .linux ⟨none, none⟩ "/h" "claude" cfgExample
          ⟨[], [("/h/.config/Claude/claude_desktop_config.json",
                FileContent.json (Json.obj
                  [("mcpServers", Json.obj [("other", Json.obj [])]),
                   ("customKey", Json.num 42)]))]⟩).2 = .ok () ∧
      getKey (writeConfig .linux ⟨none, none⟩ "/h" "claude" cfgExample
          ⟨[], [("/h/.config/Claude/claude_desktop_config.json",
                FileContent.json (Json.obj
                  [("mcpServers", Json.obj [("other", Json.obj [])]),
                   ("customKey", Json.num 42)]))]⟩).1.files
          "/h/.config/Claude/claude_desktop_config.json" =
        some (FileContent.json (Json.obj mergedDoc)) ∧
      (∀ k, k ≠ "mcpServers" →
        getKey mergedDoc k =
          getKey [("mcpServers", Json.obj [("other", Json.obj [])]),
                  ("customKey", Json.num 42)] k) ∧
      getKey mergedDoc "mcpServers" = some (Json.obj mergedMcp) ∧
      (∀ n, getKey [("srv", Json.obj [("command", Json.str "npx")])] n = none →
        getKey mergedMcp n = getKey [("other", Json.obj [])] n) ∧
      (∀ n v, getKey [("srv", Json.obj [("command", Json.str "npx")])] n = some v →
        getKey mergedMcp n = some v) :=
  merge_preserves_foreign_data .linux ⟨none, none⟩ "/h" "claude" cfgExample
    ⟨[], [("/h/.config/Claude/claude_desktop_config.json",
          FileContent.json (Json.obj
            [("mcpServers", Json.obj [("other", Json.obj [])]),
             ("customKey", Json.num 42)]))]⟩
    "/h/.config/Claude/claude_desktop_config.json"
    [("mcpServers", Json.obj [("other", Json.obj [])]), ("customKey", Json.num 42)]
    [("other", Json.obj [])]
    [("srv", Json.obj [("command", Json.str "npx")])]
    rfl rfl rfl rfl (by decide)

/-- Witness for C4: recovery from a corrupt existing file. -/
theorem corrupt_or_missing_recovery_witness :
    (writeConfig .linux ⟨none, none⟩ "/h" "witsy" cfgExample
        ⟨[], [("/h/.config/Witsy/settings.json", FileContent.corrupt "oops")]⟩).2 =
      .ok () ∧
    getKey (writeConfig .linux ⟨none, none⟩ "/h" "witsy" cfgExample
        ⟨[], [("/h/.config/Witsy/settings.json", FileContent.corrupt "oops")]⟩).1.files
        "/h/.config/Witsy/settings.json" =
      some (FileContent.json (Json.obj [("mcpServers",
        Json.obj [("srv", Json.obj [("command", Json.str "npx")])])])) :=
  corrupt_or_missing_recovery .linux ⟨none, none⟩ "/h" "witsy" cfgExample
    ⟨[], [("/h/.config/Witsy/settings.json", FileContent.corrupt "oops")]⟩
    "/h/.config/Witsy/settings.json"
    [("srv", Json.obj [("command", Json.str "npx")])]
    rfl (Or.inr ⟨"oops", rfl⟩) rfl (by decide)

end Gridly

namespace Gridly

/-- C2: calling the install write twice with the same config yields, after the
second call, a file at the resolved path byte-identical to the file after the
first call, whatever the initial state of the filesystem. -/
theorem install_idempotent (platform : Platform) (env : Env) (homeDir : String)
    (client : String) (config : Json) (fs : FS) (path : String)
    (newMcp : List (String × Json))
    (hpath : getConfigPath platform env homeDir client = some path)
    (hnew : jsGetField config "mcpServers" = .ok (some (Json.obj newMcp)))
    (hnd : (newMcp.map Prod.fst).Nodup) :
    fileBytes (writeConfig platform env homeDir client config
        (writeConfig platform env homeDir client config fs).1).1 path =
      fileBytes (writeConfig platform env homeDir client config fs).1 path := by
  have heq1 := writeConfig_eq platform env homeDir client config fs path newMcp hpath hnew
  have heq2 := writeConfig_eq platform env homeDir client config
    (writeConfig platform env homeDir client config fs).1 path newMcp hpath hnew
  cases he : jsGetField (existingConfigOf fs path) "mcpServers" with
  | error e =>
    simp only [he] at heq1
    have hfiles1 : (writeConfig platform env homeDir client config fs).1.files =
        fs.files := by
      rw [heq1]
      exact ensureDir_files fs _
    have hex2 : existingConfigOf (writeConfig platform env homeDir client config fs).1
        path = existingConfigOf fs path := by
      unfold existingConfigOf
      rw [hfiles1]
    rw [hex2, he] at heq2
    have hfiles2 : (writeConfig platform env homeDir client config
        (writeConfig platform env homeDir client config fs).1).1.files =
        (writeConfig platform env homeDir client config fs).1.files := by
      rw [heq2]
      exact ensureDir_files _ _
    simp only [fileBytes]
    rw [hfiles2]
  | ok exOpt =>
    simp only [he] at heq1
    have hfiles1 : (writeConfig platform env homeDir client config fs).1.files =
        setKey fs.files path
          (FileContent.json (mergedConfig (existingConfigOf fs path) exOpt newMcp)) := by
      rw [heq1]
    have hex2 : existingConfigOf (writeConfig platform env homeDir client config fs).1
        path = mergedConfig (existingConfigOf fs path) exOpt newMcp := by
      unfold existingConfigOf
      rw [hfiles1, getKey_setKey_self]
      rfl
    have hf2 : jsGetField (existingConfigOf
        (writeConfig platform env homeDir client config fs).1 path) "mcpServers" =
        .ok (some (Json.obj (spread2 (optEntries exOpt) newMcp))) := by
      rw [hex2]
      simp only [mergedConfig, jsGetField]
      rw [getKey_setKey_self]
    simp only [hf2] at heq2
    simp only [hex2] at heq2
    have hm2 : mergedConfig (mergedConfig (existingConfigOf fs path) exOpt newMcp)
        (some (Json.obj (spread2 (optEntries exOpt) newMcp))) newMcp =
        mergedConfig (existingConfigOf fs path) exOpt newMcp := by
      simp only [mergedConfig, jsEntries, optEntries]
      rw [setKey_setKey_same, spread2_self newMcp _ hnd]
    rw [hm2] at heq2
    have hfiles2 : (writeConfig platform env homeDir client config
        (writeConfig platform env homeDir client config fs).1).1.files =
        setKey (writeConfig platform env homeDir client config fs).1.files path
          (FileContent.json (mergedConfig (existingConfigOf fs path) exOpt newMcp)) := by
      rw [heq2]
    simp only [fileBytes]
    rw [hfiles2, hfiles1, getKey_setKey_self, getKey_setKey_self]

/-- Witness for C2: two successive installs of the same concrete config. -/
theorem install_idempotent_witness :
    fileBytes (writeConfig .linux ⟨none, none⟩ "/h" "claude" cfgExample
        (writeConfig .linux ⟨none, none⟩ "/h" "claude" cfgExample ⟨[], []⟩).1).1
        "/h/.config/Claude/claude_desktop_config.json" =
      fileBytes (writeConfig .linux ⟨none, none⟩ "/h" "claude" cfgExample ⟨[], []⟩).1
        "/h/.config/Claude/claude_desktop_config.json" :=
  install_idempotent .linux ⟨none, none⟩ "/h" "claude" cfgExample ⟨[], []⟩
    "/h/.config/Claude/claude_desktop_config.json"
    [("srv", Json.obj [("command", Json.str "npx")])]
    rfl rfl (by decide)

end Gridly

namespace Cli

open Gridly

/-- C5: `recordEntry` appends the entry and rewrites the file exactly when no
loaded entry matches on both `name` and `sourceType`; a duplicate skips the
write (file state unchanged) and is reported as already tracked; and the
append preserves pairwise distinctness of the `(name, sourceType)` pairs, so
a manifest maintained through `recordEntry` never holds two entries with the
same pair. -/
theorem manifest_dedup (mf : ManifestFile) (e : ManifestEntry) :
    ((∃ x ∈ loadManifest mf, x.name = e.name ∧ x.sourceType = e.sourceType) →
      recordEntry mf e = (mf, true)) ∧
    ((¬ ∃ x ∈ loadManifest mf, x.name = e.name ∧ x.sourceType = e.sourceType) →
      recordEntry mf e = (.entries (loadManifest mf ++ [e]), false)) ∧
    (((loadManifest mf).map (fun x => (x.name, x.sourceType))).Nodup →
      ((loadManifest (recordEntry mf e).1).map
        (fun x => (x.name, x.sourceType))).Nodup) := by
  have hdup : isDuplicate (loadManifest mf) e = true ↔
      ∃ x ∈ loadManifest mf, x.name = e.name ∧ x.sourceType = e.sourceType := by
    simp [isDuplicate, List.any_eq_true]
  refine ⟨?_, ?_, ?_⟩
  · intro h
    unfold recordEntry
    rw [if_pos (hdup.mpr h)]
  · intro h
    unfold recordEntry
    rw [if_neg (fun hh => h (hdup.mp hh))]
  · intro h
    unfold recordEntry
    by_cases hd : isDuplicate (loadManifest mf) e = true
    · rw [if_pos hd]
      exact h
    · rw [if_neg hd]
      simp only [loadManifest]
      rw [List.map_append, List.nodup_append]
      refine ⟨h, by simp, ?_⟩
      intro p hp hq
      simp only [List.map_cons, List.map_nil, List.mem_singleton] at hq
      subst hq
      simp only [List.mem_map] at hp
      obtain ⟨x, hx, hpx⟩ := hp
      simp only [Prod.mk.injEq] at hpx
      exact hd (hdup.mpr ⟨x, hx, hpx.1, hpx.2⟩)

/-- Shared concrete manifest entry used by witnesses. -/
def entryExample : ManifestEntry :=
  { name := "button", sourceUrl := none, sourceType := .direct_name,
    registryItem := none, fetchError := none, addedByCLI := true }

/-- Witness for C5: recording an already-tracked entry skips the write. -/
theorem manifest_dedup_witness :
    recordEntry (.entries [entryExample]) entryExample =
      (.entries [entryExample], true) :=
  (manifest_dedup (.entries [entryExample]) entryExample).1
    ⟨entryExample, by simp [loadManifest], rfl, rfl⟩

/-- C8: in the add workflow a failed URL fetch never aborts the run — the
prepared manifest entry is a `url_fetch_failed` record carrying the error,
the external installer is still invoked with the original identifier — and
whenever the installer exits non-zero, the manifest file is left untouched
and the installer's exit code propagates. -/
theorem add_fetch_failure_policy (identifier msg : String)
    (fetchResult : Except String Json) (installerExit : Nat) (mf : ManifestFile) :
    (isHttpUrl identifier = true →
      (add identifier (.error msg) installerExit mf).newEntry =
        some { name := identifier, sourceUrl := some identifier,
               sourceType := .url_fetch_failed, registryItem := none,
               fetchError := some msg, addedByCLI := true } ∧
      (add identifier (.error msg) installerExit mf).installerRan =
        some identifier) ∧
    (installerExit ≠ 0 →
      (add identifier fetchResult installerExit mf).manifestAfter = mf ∧
      (add identifier fetchResult installerExit mf).exitCode =
        some installerExit) := by
  constructor
  · intro hurl
    by_cases h0 : installerExit = 0 <;>
      simp [add, hurl, fetchEntry, h0]
  · intro hz
    simp [add, hz]

/-- Witness for C8: a concrete failing fetch followed by a failing installer
run. -/
theorem add_fetch_failure_policy_witness :
    (add "https://x.dev/r/a.json" (.error "boom") 1 .missing).newEntry =
        some { name := "https://x.dev/r/a.json",
               sourceUrl := some "https://x.dev/r/a.json",
               sourceType := .url_fetch_failed, registryItem := none,
               fetchError := some "boom", addedByCLI := true } ∧
      (add "https://x.dev/r/a.json" (.error "boom") 1 .missing).installerRan =
        some "https://x.dev/r/a.json" ∧
      (add "https://x.dev/r/a.json" (.error "boom") 1 .missing).manifestAfter =
        .missing ∧
      (add "https://x.dev/r/a.json" (.error "boom") 1 .missing).exitCode = some 1 := by
  obtain ⟨h1, h2⟩ :=
    add_fetch_failure_policy "https://x.dev/r/a.json" "boom" (.error "boom") 1 .missing
  have ha := h1 (by decide)
  have hb := h2 (by decide)
  exact ⟨ha.1, ha.2, hb.1, hb.2⟩

end Cli

namespace Gridly

/-- C7: for every platform and optional API key the TypeScript default
command builder produces the server entry whose argument vector is
`-y`, `@21st-dev/magic@latest`, `API_KEY="<key>"` with the key interpolated
verbatim (placeholder `YOUR_API_KEY` when absent); on Windows the command is
the shell `cmd` with `/c` and the package runner `npx` prepended, elsewhere
it is `npx` with the vector unmodified. -/
theorem default_command_builder (platform : Platform) (apiKey : Option String) :
    Src.getDefaultConfig platform apiKey =
      Json.obj [("mcpServers", Json.obj [("@21st-dev/magic",
        if platform = .win32 then
          Json.obj [("command", Json.str "cmd"),
            ("args", Json.arr ((["/c", "npx", "-y", "@21st-dev/magic@latest",
              "API_KEY=\"" ++ apiKey.getD "YOUR_API_KEY" ++ "\""]).map Json.str))]
        else
          Json.obj [("command", Json.str "npx"),
            ("args", Json.arr ((["-y", "@21st-dev/magic@latest",
              "API_KEY=\"" ++ apiKey.getD "YOUR_API_KEY" ++ "\""]).map Json.str))])])] := by
  unfold Src.getDefaultConfig Src.createPlatformCommand Src.createMagicArgs
  by_cases h : platform = .win32 <;> simp [h]

/-- C10 counterexample: the compiled module and the TypeScript module already
disagree at one concrete input — the compiled `getDefaultConfig` names the
package `@gridly-dev/magic` where the TypeScript source names it
`@21st-dev/magic`. -/
theorem dist_src_differ_counterexample :
    Dist.getDefaultConfig .linux none ≠ Src.getDefaultConfig .linux none := by
  intro h
  simp [Dist.getDefaultConfig, Src.getDefaultConfig, Dist.createMagicArgs,
    Src.createMagicArgs, Dist.createPlatformCommand, Src.createPlatformCommand] at h

/-- C10 (amended): the two modules agree exactly on `clientPaths` and
`createPlatformCommand`, and their `getDefaultConfig` outputs are identical
except for the package identifier: the compiled module emits the server key
`@gridly-dev/magic` and the argument `@gridly-dev/magic@latest` where the
TypeScript source emits `@21st-dev/magic` and `@21st-dev/magic@latest`, with
the surrounding argument vector and command wrapping unchanged. -/
theorem dist_src_equivalence (platform : Platform) (env : Env) (homeDir : String)
    (passedArgs : List String) (apiKey : Option String) :
    Dist.clientPaths platform env homeDir = Src.clientPaths platform env homeDir ∧
    Dist.createPlatformCommand platform passedArgs =
      Src.createPlatformCommand platform passedArgs ∧
    ∃ pre post,
      Src.getDefaultConfig platform apiKey = Json.obj [("mcpServers", Json.obj
        [("@21st-dev/magic", Src.createPlatformCommand platform
          (pre ++ ["@21st-dev/magic@latest"] ++ post))])] ∧
      Dist.getDefaultConfig platform apiKey = Json.obj [("mcpServers", Json.obj
        [("@gridly-dev/magic", Src.createPlatformCommand platform
          (pre ++ ["@gridly-dev/magic@latest"] ++ post))])] :=
  ⟨rfl, rfl, ["-y"], ["API_KEY=\"" ++ apiKey.getD "YOUR_API_KEY" ++ "\""], rfl, rfl⟩

end Gridly
